import Mathlib

/-!
Shallow embedding of the pld-cli upload tool (the `index.js` entry point and
its near-duplicate second entry point). The embedding covers the history
store (`saveHistory`), the config store (`saveConfig`,
`deleteServiceConfig`), credential lookup (`getServiceCredentials` from
`index.js` and `getServiceApiKey` from the second entry point), the upload
router (`uploadFile`), the per-service response normalization and the
Pixeldrain Basic-auth header, the progress/ETA callback
(`onUploadProgress`), and the SIGINT cancellation control flow.

JavaScript numbers reached by the progress computation are modelled as
exact rationals together with explicit `Infinity` and `NaN` values
(`JSNum`); IEEE-754 rounding of finite values is idealized away. JavaScript
objects (the `services` map of `config.json`) are modelled as association
lists with `List.lookup`; JS string truthiness (`""` and `undefined` are
falsy) is modelled explicitly.
-/

namespace Pld

/-! ### History store -/

/-- One entry of `history.json`, as built by the upload functions. -/
structure HistoryEntry where
  service : String
  timestamp : String
  filename : String
  fileSize : String
  fileId : String
  downloadLink : String
deriving DecidableEq, Repr

/-- Body of `saveHistory` (identical in both entry points): `unshift` the
new entry onto the loaded history, then `splice(50)` (keep only the first
50 elements) when the length exceeds 50. The function returns the list
written back to `history.json`. -/
def saveHistory (history : List HistoryEntry) (entry : HistoryEntry) : List HistoryEntry :=
  let h := entry :: history
  if h.length > 50 then h.take 50 else h

/-! ### Config store -/

/-- One value of the `config.services` object: `{ apiKey, updatedAt }`. -/
structure ServiceEntry where
  apiKey : String
  updatedAt : String
deriving DecidableEq, Repr

/-- The `config.googleDrive` section: `{ clientId, clientSecret,
refreshToken, updatedAt }`. -/
structure GoogleDriveCfg where
  clientId : String
  clientSecret : String
  refreshToken : Option String
  updatedAt : Option String
deriving DecidableEq, Repr

/-- A parsed `config.json` document: the legacy top-level `apiKey`, the
`services` object (absent, or an object mapping service names to entries,
modelled as an association list), and the `googleDrive` section. `none`
models an absent field. -/
structure Config where
  apiKey : Option String
  services : Option (List (String × ServiceEntry))
  googleDrive : Option GoogleDriveCfg
deriving DecidableEq, Repr

/-- The `{}` default used by `loadConfig() || {}`. -/
def emptyConfig : Config := ⟨none, none, none⟩

/-- JS truthiness of an optional string: absent (`undefined`) and the empty
string are falsy. -/
def strTruthy : Option String → Bool
  | none => false
  | some s => !(s == "")

/-- JS property access `obj[k]` on an association list (keys are unique in
an object parsed from JSON): the value at the key, or `undefined`. -/
def getKey : List (String × ServiceEntry) → String → Option ServiceEntry
  | [], _ => none
  | p :: t, k => if p.1 = k then some p.2 else getKey t k

/-- JS object assignment `obj[k] = v` on an association list: replace the
value at an existing key in place, otherwise append the new key. -/
def setKey (l : List (String × ServiceEntry)) (k : String) (v : ServiceEntry) :
    List (String × ServiceEntry) :=
  if l.any (fun p => decide (p.1 = k)) then
    l.map (fun p => if p.1 = k then (k, v) else p)
  else l ++ [(k, v)]

/-- JS `delete obj[k]` on an association list: drop the pair at the key. -/
def delKey : List (String × ServiceEntry) → String → List (String × ServiceEntry)
  | [], _ => []
  | p :: t, k => if p.1 = k then delKey t k else p :: delKey t k

/-- The credentials argument of `saveConfig` in `index.js`. For
`googleDrive` the spread fields `clientId`/`clientSecret`/`refreshToken`
are used; for Pixeldrain/Gofile only `apiKey` is read. -/
structure Credentials where
  apiKey : String
  clientId : String
  clientSecret : String
  refreshToken : Option String
deriving DecidableEq, Repr

/-- Body of `saveConfig` in `index.js`: load the stored config (defaulting
to `{}`), then either overwrite the `googleDrive` section, or ensure
`config.services` exists and overwrite `config.services[serviceType]`,
stamping `updatedAt` with the current time, and write the whole document
back. The function maps the prior stored document (`none` when the file is
absent) to the document that is written. -/
def saveConfig (stored : Option Config) (serviceType : String)
    (credentials : Credentials) (now : String) : Config :=
  let config := stored.getD emptyConfig
  if serviceType == "googleDrive" then
    { config with
      googleDrive := some ⟨credentials.clientId, credentials.clientSecret,
        credentials.refreshToken, some now⟩ }
  else
    let services := config.services.getD []
    { config with
      services := some (setKey services serviceType ⟨credentials.apiKey, now⟩) }

/-- Body of `deleteServiceConfig` in `index.js`: when the stored config
exists, has a `services` object, and `services[service]` is present,
delete that key and write the document back; otherwise nothing is written
and the stored state is unchanged. -/
def deleteServiceConfig (stored : Option Config) (service : String) : Option Config :=
  match stored with
  | none => none
  | some config =>
    match config.services with
    | none => some config
    | some l =>
      if (getKey l service).isSome then
        some { config with services := some (delKey l service) }
      else some config

/-- Reads `config.services[s]` out of a stored config state. -/
def lookupService (stored : Option Config) (s : String) : Option ServiceEntry :=
  match stored with
  | none => none
  | some config =>
    match config.services with
    | none => none
    | some l => getKey l s

/-! ### Credential lookup in the two entry points -/

/-- Return value of `getServiceApiKey` from the second entry point: `null`
when there is no config; the legacy top-level `apiKey` when it is truthy,
`config.services` is absent and the service is `pixeldrain` (the function
also migrates the key via `saveConfig`, a write that does not affect the
returned value); otherwise `config.services[service].apiKey` when the entry
exists, else `null`. -/
def getServiceApiKey (stored : Option Config) (service : String) : Option String :=
  match stored with
  | none => none
  | some config =>
    if strTruthy config.apiKey && config.services.isNone && (service == "pixeldrain") then
      config.apiKey
    else
      match config.services with
      | some l => (getKey l service).map ServiceEntry.apiKey
      | none => none

/-- Possible return values of `getServiceCredentials` in `index.js`:
`null`, the `googleDrive` section, the legacy object `{ apiKey }`, or a
`services` entry. -/
inductive CredResult where
  | null : CredResult
  | gdrive (g : GoogleDriveCfg) : CredResult
  | legacy (key : String) : CredResult
  | entry (e : ServiceEntry) : CredResult
deriving DecidableEq, Repr

/-- Body of `getServiceCredentials` in `index.js`, kept faithful to the
source: the backward-compatibility branch for the legacy config format is
nested inside the branch that already requires `config.services` to be
present with an entry for `serviceType`, although its own condition
requires `config.services` to be absent. -/
def getServiceCredentials (stored : Option Config) (serviceType : String) : CredResult :=
  match stored with
  | none => .null
  | some config =>
    if serviceType == "googleDrive" then
      match config.googleDrive with
      | some g => .gdrive g
      | none => .null
    else
      if (match config.services with
          | some l => (getKey l serviceType).isSome
          | none => false) then
        if strTruthy config.apiKey && config.services.isNone
            && (serviceType == "pixeldrain") then
          .legacy (config.apiKey.getD "")
        else
          match config.services with
          | some l =>
            match getKey l serviceType with
            | some e => .entry e
            | none => .null
          | none => .null
      else .null

/-- The `credentials ? credentials.apiKey : null` projection applied by the
callers of `getServiceCredentials` in `index.js` (reading `.apiKey` off a
`googleDrive` result yields `undefined`, modelled as `none`). -/
def credApiKey : CredResult → Option String
  | .entry e => some e.apiKey
  | .legacy k => some k
  | _ => none

/-! ### Service adapters and auth headers -/

/-- UTF-8 bytes of one character (code points below `0x80` are one byte,
below `0x800` two, below `0x10000` three, otherwise four). -/
def utf8Bytes (c : Char) : List Nat :=
  let n := c.toNat
  if n < 0x80 then [n]
  else if n < 0x800 then [0xC0 + n / 64, 0x80 + n % 64]
  else if n < 0x10000 then
    [0xE0 + n / 4096, 0x80 + n / 64 % 64, 0x80 + n % 64]
  else
    [0xF0 + n / 262144, 0x80 + n / 4096 % 64, 0x80 + n / 64 % 64, 0x80 + n % 64]

/-- Bytes of the UTF-8 encoding of a string, as produced by
`Buffer.from(s)`. -/
def strBytes (s : String) : List Nat :=
  s.data.flatMap utf8Bytes

/-- The standard base64 alphabet. -/
def base64Chars : List Char :=
  "ABCDEFGHIJKLMNOPQRSTUVWXYZabcdefghijklmnopqrstuvwxyz0123456789+/".toList

/-- Character of the base64 alphabet at a 6-bit index. -/
def b64Char (n : Nat) : Char := base64Chars.getD n 'A'

/-- Base64 encoding of a byte list with `=` padding, as produced by
`Buffer.toString('base64')`. -/
def base64Encode : List Nat → String
  | [] => ""
  | [a] => String.mk [b64Char (a / 4), b64Char (a % 4 * 16)] ++ "=="
  | [a, b] =>
    String.mk [b64Char (a / 4), b64Char (a % 4 * 16 + b / 16),
      b64Char (b % 16 * 4)] ++ "="
  | a :: b :: c :: rest =>
    String.mk [b64Char (a / 4), b64Char (a % 4 * 16 + b / 16),
      b64Char (b % 16 * 4 + c / 64), b64Char (c % 64)] ++ base64Encode rest

/-- The Authorization header built by `uploadToPixeldrain` in both entry
points: `` `Basic ${Buffer.from(`:${apiKey}`).toString('base64')}` ``. -/
def pixeldrainAuthHeader (apiKey : String) : String :=
  "Basic " ++ base64Encode (strBytes (":" ++ apiKey))

/-- Modelled from the claim wording for comparison: HTTP Basic
authentication with a username and a password, i.e. `Basic ` followed by
the base64 encoding of `user:pass`. -/
def basicAuthSpec (user pass : String) : String :=
  "Basic " ++ base64Encode (strBytes (user ++ ":" ++ pass))

/-- The optional Authorization header built by `uploadToGofile`: `Bearer `
plus the token when the token is truthy, otherwise no header. -/
def gofileAuthHeader (token : Option String) : Option String :=
  if strTruthy token then some ("Bearer " ++ token.getD "") else none

/-- Shape of a successful Pixeldrain upload response (only the `id` field
is read). -/
structure PixeldrainResponse where
  id : String
deriving DecidableEq, Repr

/-- The `data` object of a successful Gofile upload response. -/
structure GofileResponseData where
  fileId : String
  downloadPage : String
deriving DecidableEq, Repr

/-- Shape of a successful Gofile upload response (only `data.fileId` and
`data.downloadPage` are read). -/
structure GofileResponse where
  data : GofileResponseData
deriving DecidableEq, Repr

/-- Normalization performed by the Pixeldrain adapter: the common
`(fileId, downloadLink)` pair extracted from the response. -/
def pixeldrainNormalize (resp : PixeldrainResponse) : String × String :=
  (resp.id, "https://pixeldrain.com/u/" ++ resp.id)

/-- Normalization performed by the Gofile adapter: the common
`(fileId, downloadLink)` pair extracted from the response. -/
def gofileNormalize (resp : GofileResponse) : String × String :=
  (resp.data.fileId, resp.data.downloadPage)

/-! ### Upload control flow -/

/-- Failure modes distinguished by the catch blocks of the upload
functions: an HTTP error response, a network error (request sent, no
response), or any other exception. -/
inductive UploadError where
  | httpError (status : Nat) (message : Option String)
  | networkError
  | other (message : String)
deriving DecidableEq, Repr

/-- Outcome of the awaited `axios.post` call: a successful response, a
raised error, or a SIGINT delivered while the request is in flight (which
runs `handleCancel`). -/
inductive ReqOutcome (α : Type) where
  | success (resp : α)
  | failure (e : UploadError)
  | interrupted
deriving DecidableEq, Repr

/-- Observable state of the process when an upload function finishes:
the history store, whether the `handleCancel` SIGINT listener is still
installed, whether `abortController.abort()` was called, and the exit code
(`none` means a normal return without `process.exit`). -/
structure ProcResult where
  history : List HistoryEntry
  sigintHandlerInstalled : Bool
  aborted : Bool
  exitCode : Option Nat
deriving DecidableEq, Repr

/-- Control flow of `uploadToPixeldrain` from the `process.on('SIGINT',
handleCancel)` registration onward, as a function of the request outcome:
a SIGINT in flight runs `handleCancel` (abort, then `process.exit(0)`,
with no history write); an error is caught and ends in `process.exit(1)`
with no history write (the `removeListener` line is skipped); a success
removes the listener, normalizes the response and prepends the history
entry via `saveHistory`. -/
def uploadToPixeldrain (hist : List HistoryEntry)
    (fileName fileSize now : String)
    (outcome : ReqOutcome PixeldrainResponse) : ProcResult :=
  match outcome with
  | .interrupted => ⟨hist, true, true, some 0⟩
  | .failure _ => ⟨hist, true, false, some 1⟩
  | .success resp =>
    let pair := pixeldrainNormalize resp
    let historyEntry : HistoryEntry :=
      ⟨"pixeldrain", now, fileName, fileSize, pair.1, pair.2⟩
    ⟨saveHistory hist historyEntry, false, false, none⟩

/-- Control flow of `uploadToGofile` from the SIGINT registration onward;
identical to `uploadToPixeldrain` except for the response normalization
and the `service` field of the history entry. -/
def uploadToGofile (hist : List HistoryEntry)
    (fileName fileSize now : String)
    (outcome : ReqOutcome GofileResponse) : ProcResult :=
  match outcome with
  | .interrupted => ⟨hist, true, true, some 0⟩
  | .failure _ => ⟨hist, true, false, some 1⟩
  | .success resp =>
    let pair := gofileNormalize resp
    let historyEntry : HistoryEntry :=
      ⟨"gofile", now, fileName, fileSize, pair.1, pair.2⟩
    ⟨saveHistory hist historyEntry, false, false, none⟩

/-- Service selected by `uploadFile` in `index.js` from the CLI flag
(default `gofile`). -/
def serviceOfFlag (serviceFlag : Option String) : String :=
  if serviceFlag == some "gf" then "gofile"
  else if serviceFlag == some "pd" then "pixeldrain"
  else if serviceFlag == some "gd" then "googledrive"
  else "gofile"

/-- Routing decision reached by `uploadFile` before any HTTP request is
made: exit with the missing-API-key error, or proceed to one of the three
upload functions (with the Authorization header the request will carry). -/
inductive UploadDecision where
  | exitNoApiKey : UploadDecision
  | proceedGoogleDrive : UploadDecision
  | proceedGofile (authHeader : Option String) : UploadDecision
  | proceedPixeldrain (authHeader : String) : UploadDecision
deriving DecidableEq, Repr

/-- Credential routing of `uploadFile` in `index.js`: resolve the service
from the flag, look up its credentials, exit with an error when Pixeldrain
is selected and the key is falsy, otherwise proceed and fix the
Authorization header of the request. The interactive oversize confirmation
for Pixeldrain (which can only abort the process before this decision and
never alters it) is omitted. -/
def uploadFile (stored : Option Config) (serviceFlag : Option String) : UploadDecision :=
  let service := serviceOfFlag serviceFlag
  if service == "googledrive" then .proceedGoogleDrive
  else
    let apiKey := credApiKey (getServiceCredentials stored service)
    if !(strTruthy apiKey) && (service == "pixeldrain") then .exitNoApiKey
    else if service == "gofile" then .proceedGofile (gofileAuthHeader apiKey)
    else .proceedPixeldrain (pixeldrainAuthHeader (apiKey.getD ""))

/-! ### Progress and ETA computation -/

/-- JavaScript number values reachable in the progress computation: finite
values as exact rationals, plus `Infinity`, `-Infinity` and `NaN` (which
arise from division by zero). -/
inductive JSNum where
  | num (q : ℚ)
  | posInf
  | negInf
  | nan
deriving DecidableEq, Repr

/-- Truncation toward zero, the rounding JS uses for the `%` operator. -/
def ratTrunc (q : ℚ) : ℤ := if 0 ≤ q then ⌊q⌋ else ⌈q⌉

/-- JS division on the values above; a finite value divided by zero gives a
signed infinity, `0 / 0` gives `NaN`. -/
def jsDiv : JSNum → JSNum → JSNum
  | .num a, .num b =>
    if b ≠ 0 then .num (a / b)
    else if 0 < a then .posInf
    else if a < 0 then .negInf
    else .nan
  | .num _, .posInf => .num 0
  | .num _, .negInf => .num 0
  | .posInf, .num b => if 0 ≤ b then .posInf else .negInf
  | .negInf, .num b => if 0 ≤ b then .negInf else .posInf
  | _, _ => .nan

/-- `Math.round`: half-up rounding on finite values, identity on
infinities and `NaN`. -/
def jsRound : JSNum → JSNum
  | .num q => .num (⌊q + 1 / 2⌋ : ℤ)
  | x => x

/-- `Math.floor`: identity on infinities and `NaN`. -/
def jsFloor : JSNum → JSNum
  | .num q => .num (⌊q⌋ : ℤ)
  | x => x

/-- JS `%`: the remainder `a - b * trunc(a / b)` for finite operands with
`b ≠ 0`; an infinite dividend or a zero divisor gives `NaN`; a finite
dividend with an infinite divisor is returned unchanged. -/
def jsMod : JSNum → JSNum → JSNum
  | .num a, .num b =>
    if b ≠ 0 then .num (a - b * (ratTrunc (a / b) : ℚ)) else .nan
  | .num a, .posInf => .num a
  | .num a, .negInf => .num a
  | _, _ => .nan

/-- JS `<=`: any comparison with `NaN` is false. -/
def jsLe : JSNum → JSNum → Bool
  | .nan, _ => false
  | _, .nan => false
  | .num a, .num b => decide (a ≤ b)
  | .negInf, _ => true
  | _, .posInf => true
  | _, _ => false

/-- JS `<`: any comparison with `NaN` is false. -/
def jsLt : JSNum → JSNum → Bool
  | .nan, _ => false
  | _, .nan => false
  | .num a, .num b => decide (a < b)
  | .negInf, .negInf => false
  | .negInf, _ => true
  | .posInf, _ => false
  | .num _, .posInf => true
  | .num _, .negInf => false

/-- Sample state of the progress tracker: the `lastLoaded` byte count and
the `lastTime` timestamp in milliseconds (initialized to `0` and the start
time). -/
structure ProgressState where
  lastLoaded : ℕ
  lastTime : ℕ
deriving DecidableEq, Repr

/-- An axios progress event: the bytes loaded so far and the total size
when known. -/
structure ProgressEvent where
  loaded : ℕ
  total : Option ℕ
deriving DecidableEq, Repr

/-- Values shown by one progress sample (the `toFixed(2)` display
formatting of the MB/s figure and the ETA string are omitted). -/
structure ProgressDisplay where
  percentCompleted : ℤ
  speedBps : JSNum
  etaSeconds : JSNum
  etaMin : JSNum
  etaSec : JSNum
deriving DecidableEq, Repr

/-- Body of the `onUploadProgress` callback (identical in
`uploadToPixeldrain` and `uploadToGofile` of both entry points): when the
total is truthy (known and nonzero) and the elapsed time since the last
sample is strictly positive, compute the speed, ETA and its minute/second
split, and update `lastLoaded`/`lastTime`; otherwise display nothing and
leave the sample state unchanged. -/
def onUploadProgress (st : ProgressState) (ev : ProgressEvent)
    (currentTime : ℕ) : Option ProgressDisplay × ProgressState :=
  match ev.total with
  | none => (none, st)
  | some total =>
    if total ≠ 0 then
      let percentCompleted : ℤ := ⌊(ev.loaded : ℚ) * 100 / (total : ℚ) + 1 / 2⌋
      let timeDiff : ℚ := ((currentTime : ℚ) - (st.lastTime : ℚ)) / 1000
      let loadedDiff : ℚ := (ev.loaded : ℚ) - (st.lastLoaded : ℚ)
      if 0 < timeDiff then
        let speedBps := jsDiv (.num loadedDiff) (.num timeDiff)
        let remainingBytes : ℚ := (total : ℚ) - (ev.loaded : ℚ)
        let etaSeconds := jsRound (jsDiv (.num remainingBytes) speedBps)
        let etaMin := jsFloor (jsDiv etaSeconds (.num 60))
        let etaSec := jsMod etaSeconds (.num 60)
        (some ⟨percentCompleted, speedBps, etaSeconds, etaMin, etaSec⟩,
          ⟨ev.loaded, currentTime⟩)
      else (none, st)
    else (none, st)

/-! ### Sample data used by witnesses and counterexamples -/

/-- A sample history entry. -/
def sampleEntry : HistoryEntry :=
  ⟨"pixeldrain", "2024-01-01T00:00:00.000Z", "a.txt", "1 KB", "abc123",
    "https://pixeldrain.com/u/abc123"⟩

/-- A legacy-format config document: a top-level `apiKey` and no `services`
object. -/
def legacyConfig : Config := ⟨some "legacy-key", none, none⟩

/-- A config document whose stored Gofile token is the empty string. -/
def emptyTokenConfig : Config :=
  ⟨none, some [("gofile", ⟨"", "2024-01-01T00:00:00.000Z"⟩)], none⟩

/-- A config document with a non-empty stored Gofile token. -/
def gofileTokenConfig : Config :=
  ⟨none, some [("gofile", ⟨"tok", "2024-01-01T00:00:00.000Z"⟩)], none⟩

/-! ### Helper lemmas -/

/-- The `unshift`-then-`splice(50)` sequence keeps exactly the first 50
elements of the new entry prepended to the prior history. -/
theorem saveHistory_eq_take (h : List HistoryEntry) (e : HistoryEntry) :
    saveHistory h e = (e :: h).take 50 := by
  simp only [saveHistory]
  split
  · rfl
  · next hlen => exact (List.take_of_length_le (by omega)).symm

/-- The head of a saved history is the entry just saved. -/
theorem saveHistory_head (h : List HistoryEntry) (e : HistoryEntry) :
    (saveHistory h e).head? = some e := by
  rw [saveHistory_eq_take]; rfl

/-- Replacing the value at one key of a JS object leaves every other key's
value unchanged. -/
theorem getKey_map_set (l : List (String × ServiceEntry)) (k k' : String)
    (v : ServiceEntry) (h : k' ≠ k) :
    getKey (l.map fun p => if p.1 = k then (k, v) else p) k' = getKey l k' := by
  induction l with
  | nil => rfl
  | cons p t ih =>
    by_cases hp : p.1 = k
    · simp [getKey, hp, Ne.symm h, ih]
    · simp only [List.map_cons, if_neg hp]
      by_cases hk : p.1 = k'
      · simp [getKey, hk]
      · simp [getKey, hk, ih]

/-- Appending a fresh key to a JS object leaves every other key's value
unchanged. -/
theorem getKey_append_single (l : List (String × ServiceEntry)) (k k' : String)
    (v : ServiceEntry) (h : k' ≠ k) :
    getKey (l ++ [(k, v)]) k' = getKey l k' := by
  induction l with
  | nil => simp [getKey, Ne.symm h]
  | cons p t ih =>
    by_cases hk : p.1 = k'
    · simp [getKey, hk]
    · simp [getKey, hk, ih]

/-- JS object assignment preserves the value at every other key. -/
theorem getKey_setKey_ne (l : List (String × ServiceEntry)) (k k' : String)
    (v : ServiceEntry) (h : k' ≠ k) :
    getKey (setKey l k v) k' = getKey l k' := by
  unfold setKey
  split
  · exact getKey_map_set l k k' v h
  · exact getKey_append_single l k k' v h

/-- JS `delete obj[k]` preserves the value at every other key. -/
theorem getKey_delKey_ne (l : List (String × ServiceEntry)) (k k' : String)
    (h : k' ≠ k) :
    getKey (delKey l k) k' = getKey l k' := by
  induction l with
  | nil => rfl
  | cons p t ih =>
    by_cases hp : p.1 = k
    · simp [delKey, getKey, hp, Ne.symm h, ih]
    · simp [delKey, getKey, hp, ih]

/-- JS `delete obj[k]` removes the key. -/
theorem getKey_delKey_self (l : List (String × ServiceEntry)) (k : String) :
    getKey (delKey l k) k = none := by
  induction l with
  | nil => rfl
  | cons p t ih =>
    by_cases hp : p.1 = k
    · simp [delKey, hp, ih]
    · simp [delKey, getKey, hp, ih]

/-- Division of finite JS numbers with a nonzero divisor is exact rational
division. -/
theorem jsDiv_num_of_ne (a b : ℚ) (h : b ≠ 0) :
    jsDiv (.num a) (.num b) = .num (a / b) := by
  simp [jsDiv, h]

/-- `Math.round` on a finite value. -/
theorem jsRound_num (q : ℚ) : jsRound (.num q) = .num ((⌊q + 1 / 2⌋ : ℤ) : ℚ) := rfl

/-- `Math.floor` on a finite value. -/
theorem jsFloor_num (q : ℚ) : jsFloor (.num q) = .num ((⌊q⌋ : ℤ) : ℚ) := rfl

/-- JS `%` on finite operands with a nonzero divisor. -/
theorem jsMod_num_of_ne (a b : ℚ) (h : b ≠ 0) :
    jsMod (.num a) (.num b) = .num (a - b * (ratTrunc (a / b) : ℚ)) := by
  simp [jsMod, h]

/-- JS `<=` on finite operands. -/
theorem jsLe_num (a b : ℚ) : jsLe (.num a) (.num b) = decide (a ≤ b) := rfl

/-- JS `<` on finite operands. -/
theorem jsLt_num (a b : ℚ) : jsLt (.num a) (.num b) = decide (a < b) := rfl

/-- Truncation toward zero agrees with the floor on nonnegative values. -/
theorem ratTrunc_of_nonneg (q : ℚ) (h : 0 ≤ q) : ratTrunc q = ⌊q⌋ := by
  unfold ratTrunc
  exact if_pos h

/-- With a nonnegative remaining byte count and a strictly positive speed,
the whole ETA chain (round, the minute floor, the second remainder) stays
in range: the rounded ETA and the minutes are nonnegative and the seconds
lie in `[0, 60)`. -/
theorem etaChain_inRange (rem qs : ℚ) (hrem : 0 ≤ rem) (hqs : 0 < qs) :
    jsLe (.num 0) (jsRound (jsDiv (.num rem) (.num qs))) = true ∧
    jsLe (.num 0)
      (jsFloor (jsDiv (jsRound (jsDiv (.num rem) (.num qs))) (.num 60))) = true ∧
    jsLe (.num 0) (jsMod (jsRound (jsDiv (.num rem) (.num qs))) (.num 60)) = true ∧
    jsLt (jsMod (jsRound (jsDiv (.num rem) (.num qs))) (.num 60)) (.num 60) = true := by
  rw [jsDiv_num_of_ne _ _ (ne_of_gt hqs), jsRound_num]
  have hq : (0 : ℚ) ≤ rem / qs := div_nonneg hrem hqs.le
  set n : ℤ := ⌊rem / qs + 1 / 2⌋ with hn
  have hn0 : (0 : ℤ) ≤ n := Int.floor_nonneg.mpr (by linarith)
  have hn0' : (0 : ℚ) ≤ (n : ℚ) := by exact_mod_cast hn0
  have h60 : ((60 : ℚ)) ≠ 0 := by norm_num
  have hdiv60 : (0 : ℚ) ≤ (n : ℚ) / 60 := div_nonneg hn0' (by norm_num)
  refine ⟨?_, ?_, ?_, ?_⟩
  · rw [jsLe_num]
    exact decide_eq_true hn0'
  · rw [jsDiv_num_of_ne _ _ h60, jsFloor_num, jsLe_num]
    refine decide_eq_true ?_
    have hfl : (0 : ℤ) ≤ ⌊(n : ℚ) / 60⌋ := Int.floor_nonneg.mpr hdiv60
    exact_mod_cast hfl
  · rw [jsMod_num_of_ne _ _ h60, ratTrunc_of_nonneg _ hdiv60, jsLe_num]
    refine decide_eq_true ?_
    have hk1 : ((⌊(n : ℚ) / 60⌋ : ℤ) : ℚ) * 60 ≤ (n : ℚ) :=
      (le_div_iff₀ (by norm_num)).mp (Int.floor_le ((n : ℚ) / 60))
    linarith
  · rw [jsMod_num_of_ne _ _ h60, ratTrunc_of_nonneg _ hdiv60, jsLt_num]
    refine decide_eq_true ?_
    have hk2 : (n : ℚ) < (((⌊(n : ℚ) / 60⌋ : ℤ) : ℚ) + 1) * 60 :=
      (div_lt_iff₀ (by norm_num)).mp (Int.lt_floor_add_one ((n : ℚ) / 60))
    linarith

/-- Sanity check of the base64 encoder against `Buffer.from(':abc').toString('base64')`. -/
example : base64Encode (strBytes (":" ++ "abc")) = "OmFiYw==" := by decide

/-! ### Claims -/

/-- C1: for every history list `h` and new entry `e`, `saveHistory` stores
exactly the first 50 elements of `e` prepended to `h`: the new entry is
first, the stored length is `min (|h| + 1) 50` and hence never exceeds 50,
and when `|h| ≥ 50` the oldest entries (the tail beyond the first 49 of
`h`) are the ones dropped. -/
theorem saveHistory_bounded (h : List HistoryEntry) (e : HistoryEntry) :
    saveHistory h e = (e :: h).take 50 ∧
    (saveHistory h e).head? = some e ∧
    (saveHistory h e).length = min (h.length + 1) 50 ∧
    (saveHistory h e).length ≤ 50 ∧
    (50 ≤ h.length → saveHistory h e = e :: h.take 49) := by
  refine ⟨saveHistory_eq_take h e, saveHistory_head h e, ?_, ?_, ?_⟩
  · rw [saveHistory_eq_take, List.length_take, List.length_cons, Nat.min_comm]
  · rw [saveHistory_eq_take, List.length_take]
    omega
  · intro _
    rw [saveHistory_eq_take]
    rfl

/-- Witness for C1 at a 50-entry history: the inner hypothesis `50 ≤ |h|`
is discharged at `h = List.replicate 50 sampleEntry`. -/
theorem saveHistory_bounded_witness :
    50 ≤ (List.replicate 50 sampleEntry).length ∧
    saveHistory (List.replicate 50 sampleEntry) sampleEntry
      = sampleEntry :: (List.replicate 50 sampleEntry).take 49 :=
  ⟨by simp,
    (saveHistory_bounded (List.replicate 50 sampleEntry) sampleEntry).2.2.2.2 (by simp)⟩

/-- C3: the Pixeldrain adapter maps a successful response to the pair
`(id, "https://pixeldrain.com/u/" ++ id)`, the Gofile adapter maps a
successful response to `(data.fileId, data.downloadPage)`, and in both
cases exactly this pair is recorded in the history entry saved at the head
of the history. -/
theorem adapter_response_mapping (hist : List HistoryEntry)
    (fileName fileSize now : String)
    (presp : PixeldrainResponse) (gresp : GofileResponse) :
    (pixeldrainNormalize presp).1 = presp.id ∧
    (pixeldrainNormalize presp).2 = "https://pixeldrain.com/u/" ++ presp.id ∧
    (gofileNormalize gresp).1 = gresp.data.fileId ∧
    (gofileNormalize gresp).2 = gresp.data.downloadPage ∧
    (uploadToPixeldrain hist fileName fileSize now (.success presp)).history.head?
      = some ⟨"pixeldrain", now, fileName, fileSize,
          (pixeldrainNormalize presp).1, (pixeldrainNormalize presp).2⟩ ∧
    (uploadToGofile hist fileName fileSize now (.success gresp)).history.head?
      = some ⟨"gofile", now, fileName, fileSize,
          (gofileNormalize gresp).1, (gofileNormalize gresp).2⟩ :=
  ⟨rfl, rfl, rfl, rfl, saveHistory_head _ _, saveHistory_head _ _⟩

/-- C4: for every API key `k`, the Authorization header of the Pixeldrain
upload is `"Basic "` followed by the base64 encoding of `":" ++ k`, i.e.
HTTP Basic authentication with the empty username and `k` as password. -/
theorem pixeldrain_basic_auth (apiKey : String) :
    pixeldrainAuthHeader apiKey = basicAuthSpec "" apiKey ∧
    pixeldrainAuthHeader apiKey
      = "Basic " ++ base64Encode (strBytes (":" ++ apiKey)) :=
  ⟨rfl, rfl⟩

/-- C6: a SIGINT delivered while the request is in flight runs the
cancellation handler, which aborts the request and exits the process with
status 0 leaving the history untouched; after a successful upload the
handler is removed, so a later interrupt no longer triggers this path. -/
theorem sigint_cancellation (hist : List HistoryEntry)
    (fileName fileSize now : String) :
    (uploadToPixeldrain hist fileName fileSize now .interrupted).aborted = true ∧
    (uploadToPixeldrain hist fileName fileSize now .interrupted).exitCode = some 0 ∧
    (uploadToPixeldrain hist fileName fileSize now .interrupted).history = hist ∧
    (∀ resp, (uploadToPixeldrain hist fileName fileSize now
        (.success resp)).sigintHandlerInstalled = false) ∧
    (uploadToGofile hist fileName fileSize now .interrupted).aborted = true ∧
    (uploadToGofile hist fileName fileSize now .interrupted).exitCode = some 0 ∧
    (uploadToGofile hist fileName fileSize now .interrupted).history = hist ∧
    (∀ resp, (uploadToGofile hist fileName fileSize now
        (.success resp)).sigintHandlerInstalled = false) :=
  ⟨rfl, rfl, rfl, fun _ => rfl, rfl, rfl, rfl, fun _ => rfl⟩

/-- C9: at a legacy config document holding only a top-level `apiKey`, the
second entry point's `getServiceApiKey` returns the legacy key for
`pixeldrain`, while `getServiceCredentials` in `index.js` returns `null`
(its backward-compatibility branch is unreachable), so the two entry
points disagree exactly where the claim asserts they agree. -/
theorem legacy_credential_divergence :
    getServiceApiKey (some legacyConfig) "pixeldrain" = some "legacy-key" ∧
    getServiceCredentials (some legacyConfig) "pixeldrain" = CredResult.null ∧
    credApiKey (getServiceCredentials (some legacyConfig) "pixeldrain") = none :=
  ⟨rfl, rfl, rfl⟩

/-- C10: a history entry is appended iff the upload succeeds: every failure
outcome (HTTP error, network error, other exception) leaves the history
exactly as it was and exits with status 1, while a success stores the
history extended with the new entry. -/
theorem history_write_iff_success (hist : List HistoryEntry)
    (fileName fileSize now : String) :
    (∀ e, (uploadToPixeldrain hist fileName fileSize now (.failure e)).history = hist
      ∧ (uploadToPixeldrain hist fileName fileSize now (.failure e)).exitCode = some 1) ∧
    (∀ e, (uploadToGofile hist fileName fileSize now (.failure e)).history = hist
      ∧ (uploadToGofile hist fileName fileSize now (.failure e)).exitCode = some 1) ∧
    (∀ presp, (uploadToPixeldrain hist fileName fileSize now (.success presp)).history
      = saveHistory hist ⟨"pixeldrain", now, fileName, fileSize,
          (pixeldrainNormalize presp).1, (pixeldrainNormalize presp).2⟩) ∧
    (∀ gresp, (uploadToGofile hist fileName fileSize now (.success gresp)).history
      = saveHistory hist ⟨"gofile", now, fileName, fileSize,
          (gofileNormalize gresp).1, (gofileNormalize gresp).2⟩) :=
  ⟨fun _ => ⟨rfl, rfl⟩, fun _ => ⟨rfl, rfl⟩, fun _ => rfl, fun _ => rfl⟩

/-- C7: although every config mutation rewrites the whole document,
`saveConfig s` leaves `config.services[s']` for every `s' ≠ s`, and the
`googleDrive` section when `s` is not `googleDrive`, equal to their prior
values; and `deleteServiceConfig s` removes only `services[s]`, leaving
every other services entry and the `googleDrive` and legacy `apiKey`
fields unchanged. -/
theorem config_mutation_frame (stored : Option Config) (s : String)
    (creds : Credentials) (now : String) :
    (∀ s', s' ≠ s →
      lookupService (some (saveConfig stored s creds now)) s'
        = lookupService stored s') ∧
    (s ≠ "googleDrive" →
      (saveConfig stored s creds now).googleDrive
        = stored.bind Config.googleDrive) ∧
    lookupService (deleteServiceConfig stored s) s = none ∧
    (∀ s', s' ≠ s →
      lookupService (deleteServiceConfig stored s) s' = lookupService stored s') ∧
    (deleteServiceConfig stored s).bind Config.googleDrive
      = stored.bind Config.googleDrive ∧
    (deleteServiceConfig stored s).bind Config.apiKey
      = stored.bind Config.apiKey := by
  refine ⟨?_, ?_, ?_, ?_, ?_, ?_⟩
  · intro s' hs'
    cases stored with
    | none =>
      by_cases hgd : s = "googleDrive" <;>
        simp [saveConfig, lookupService, emptyConfig, hgd,
          getKey_setKey_ne _ _ _ _ hs', getKey, Ne.symm hs']
    | some config =>
      by_cases hgd : s = "googleDrive"
      · simp [saveConfig, lookupService, hgd]
      · cases hsv : config.services with
        | none =>
          simp [saveConfig, lookupService, hgd, hsv,
            getKey_setKey_ne _ _ _ _ hs', getKey, Ne.symm hs']
        | some l =>
          simp [saveConfig, lookupService, hgd, hsv,
            getKey_setKey_ne _ _ _ _ hs']
  · intro hgd
    cases stored with
    | none => simp [saveConfig, emptyConfig, hgd]
    | some config => simp [saveConfig, hgd]
  · cases stored with
    | none => rfl
    | some config =>
      cases hsv : config.services with
      | none => simp [deleteServiceConfig, lookupService, hsv]
      | some l =>
        cases hgk : getKey l s with
        | none => simp [deleteServiceConfig, lookupService, hsv, hgk]
        | some e =>
          simp [deleteServiceConfig, lookupService, hsv, hgk, getKey_delKey_self]
  · intro s' hs'
    cases stored with
    | none => rfl
    | some config =>
      cases hsv : config.services with
      | none => simp [deleteServiceConfig, lookupService, hsv]
      | some l =>
        cases hgk : getKey l s with
        | none => simp [deleteServiceConfig, lookupService, hsv, hgk]
        | some e =>
          simp [deleteServiceConfig, lookupService, hsv, hgk,
            getKey_delKey_ne _ _ _ hs']
  · cases stored with
    | none => rfl
    | some config =>
      cases hsv : config.services with
      | none => simp [deleteServiceConfig, hsv]
      | some l =>
        cases hgk : getKey l s with
        | none => simp [deleteServiceConfig, hsv, hgk]
        | some e => simp [deleteServiceConfig, hsv, hgk]
  · cases stored with
    | none => rfl
    | some config =>
      cases hsv : config.services with
      | none => simp [deleteServiceConfig, hsv]
      | some l =>
        cases hgk : getKey l s with
        | none => simp [deleteServiceConfig, hsv, hgk]
        | some e => simp [deleteServiceConfig, hsv, hgk]

/-- Witness for C7 at a concrete config: mutating `pixeldrain` leaves the
stored `gofile` entry and the `googleDrive` section unchanged. -/
theorem config_mutation_frame_witness :
    lookupService
        (some (saveConfig (some gofileTokenConfig) "pixeldrain"
          ⟨"k", "", "", none⟩ "2024-01-02T00:00:00.000Z")) "gofile"
      = lookupService (some gofileTokenConfig) "gofile" ∧
    lookupService (deleteServiceConfig (some gofileTokenConfig) "pixeldrain") "gofile"
      = lookupService (some gofileTokenConfig) "gofile" ∧
    (saveConfig (some gofileTokenConfig) "pixeldrain"
        ⟨"k", "", "", none⟩ "2024-01-02T00:00:00.000Z").googleDrive
      = (some gofileTokenConfig).bind Config.googleDrive :=
  ⟨(config_mutation_frame (some gofileTokenConfig) "pixeldrain"
      ⟨"k", "", "", none⟩ "2024-01-02T00:00:00.000Z").1 "gofile" (by decide),
   (config_mutation_frame (some gofileTokenConfig) "pixeldrain"
      ⟨"k", "", "", none⟩ "2024-01-02T00:00:00.000Z").2.2.2.1 "gofile" (by decide),
   (config_mutation_frame (some gofileTokenConfig) "pixeldrain"
      ⟨"k", "", "", none⟩ "2024-01-02T00:00:00.000Z").2.1 (by decide)⟩

/-- C5 counterexample: a stored Gofile token that is the empty string is a
stored token, yet the upload proceeds with no Authorization header (the
claim as stated requires the header `"Bearer "`). -/
theorem gofile_empty_token_cex :
    credApiKey (getServiceCredentials (some emptyTokenConfig) "gofile") = some "" ∧
    uploadFile (some emptyTokenConfig) (some "gf")
      = UploadDecision.proceedGofile none :=
  ⟨rfl, rfl⟩

/-- C5 (amended): anonymous upload is supported by Gofile only: with no
Pixeldrain API key an upload routed to Pixeldrain exits with an error
before any request; an upload routed to Gofile with no stored token
proceeds with no Authorization header, and with a stored non-empty token
`t` it carries exactly `"Bearer " ++ t` (a stored empty token is falsy and
is treated as absent). -/
theorem anonymous_upload_routing (stored : Option Config) :
    (credApiKey (getServiceCredentials stored "pixeldrain") = none →
      uploadFile stored (some "pd") = UploadDecision.exitNoApiKey) ∧
    (credApiKey (getServiceCredentials stored "gofile") = none →
      uploadFile stored (some "gf") = UploadDecision.proceedGofile none) ∧
    (∀ t, t ≠ "" →
      credApiKey (getServiceCredentials stored "gofile") = some t →
      uploadFile stored (some "gf")
        = UploadDecision.proceedGofile (some ("Bearer " ++ t))) := by
  refine ⟨?_, ?_, ?_⟩
  · intro hk
    simp [uploadFile, serviceOfFlag, hk, strTruthy]
  · intro hk
    simp [uploadFile, serviceOfFlag, hk, strTruthy, gofileAuthHeader]
  · intro t ht hk
    simp [uploadFile, serviceOfFlag, hk, strTruthy, gofileAuthHeader, ht]

/-- Witness for C5 (amended) at concrete configs: no Pixeldrain key exits,
no Gofile token is anonymous, and the stored token `"tok"` produces
`Bearer tok`. -/
theorem anonymous_upload_routing_witness :
    uploadFile (some emptyConfig) (some "pd") = UploadDecision.exitNoApiKey ∧
    uploadFile (some emptyConfig) (some "gf") = UploadDecision.proceedGofile none ∧
    uploadFile (some gofileTokenConfig) (some "gf")
      = UploadDecision.proceedGofile (some ("Bearer " ++ "tok")) :=
  ⟨(anonymous_upload_routing (some emptyConfig)).1 rfl,
   (anonymous_upload_routing (some emptyConfig)).2.1 rfl,
   (anonymous_upload_routing (some gofileTokenConfig)).2.2 "tok" (by decide) rfl⟩

/-- C2: at every progress sample where the total size is known (truthy)
and the elapsed time since the previous sample is strictly positive, the
computed speed is `(loaded - lastLoaded) / timeDiff` with `timeDiff` the
elapsed milliseconds over 1000 (bytes per second), the computed
`etaSeconds` is `round((total - loaded) / speed)`, and the sample state is
updated to the current loaded count and current time. -/
theorem progress_sample_spec (st : ProgressState) (loaded total currentTime : ℕ)
    (htot : total ≠ 0) (ht : st.lastTime < currentTime) :
    ∃ d, (onUploadProgress st ⟨loaded, some total⟩ currentTime).1 = some d ∧
      d.speedBps = JSNum.num (((loaded : ℚ) - (st.lastLoaded : ℚ)) /
        (((currentTime : ℚ) - (st.lastTime : ℚ)) / 1000)) ∧
      d.etaSeconds
        = jsRound (jsDiv (JSNum.num ((total : ℚ) - (loaded : ℚ))) d.speedBps) ∧
      (onUploadProgress st ⟨loaded, some total⟩ currentTime).2
        = ⟨loaded, currentTime⟩ := by
  have hlt : (st.lastTime : ℚ) < (currentTime : ℚ) := by exact_mod_cast ht
  have htd : (0 : ℚ) < ((currentTime : ℚ) - (st.lastTime : ℚ)) / 1000 :=
    div_pos (by linarith) (by norm_num)
  simp only [onUploadProgress]
  rw [if_pos htot, if_pos htd]
  exact ⟨_, rfl, jsDiv_num_of_ne _ _ (ne_of_gt htd), rfl, rfl⟩

/-- Witness for C2 at a concrete sample: total 1000 bytes, 500 loaded,
2000 ms elapsed. -/
theorem progress_sample_spec_witness :
    (1000 : ℕ) ≠ 0 ∧
    (⟨0, 0⟩ : ProgressState).lastTime < 2000 ∧
    (onUploadProgress ⟨0, 0⟩ ⟨500, some 1000⟩ 2000).2 = ⟨500, 2000⟩ := by
  refine ⟨by decide, by decide, ?_⟩
  obtain ⟨d, h1, h2, h3, h4⟩ :=
    progress_sample_spec ⟨0, 0⟩ 500 1000 2000 (by decide) (by decide)
  exact h4

/-- C8 counterexample: a sample with `lastLoaded = loaded` (no bytes since
the previous sample) satisfies the claim's hypotheses, yet the computed
speed is 0, the ETA is Infinity and `etaSec = Infinity % 60` is `NaN`, so
`0 <= etaSec < 60` fails; when additionally `loaded = total`, `etaSeconds`
itself is `NaN` and even `etaSeconds >= 0` fails. -/
theorem progress_eta_nonneg_cex :
    (⟨50, 0⟩ : ProgressState).lastLoaded ≤ 50 ∧ (50 : ℕ) ≤ 100 ∧
    (⟨50, 0⟩ : ProgressState).lastTime < 1000 ∧
    (onUploadProgress ⟨50, 0⟩ ⟨50, some 100⟩ 1000).1.map
        (fun d => jsLe (JSNum.num 0) d.etaSec && jsLt d.etaSec (JSNum.num 60))
      = some false ∧
    (onUploadProgress ⟨100, 0⟩ ⟨100, some 100⟩ 1000).1.map
        (fun d => jsLe (JSNum.num 0) d.etaSeconds) = some false := by
  refine ⟨by decide, by decide, by decide, ?_, ?_⟩ <;>
    norm_num [onUploadProgress, jsDiv, jsRound, jsFloor, jsMod, jsLe, jsLt]

/-- C8 (amended): for every progress sample with strictly positive
progress since the previous sample (`lastLoaded < loaded ≤ total`) and
strictly positive elapsed time, the computed speed is nonnegative,
`etaSeconds` and `etaMin` are nonnegative, and `etaSec` lies in
`[0, 60)`. For a zero-progress sample the speed is 0 and the ETA values
degenerate to Infinity/NaN, for which the JS comparisons fail. -/
theorem progress_eta_nonneg (st : ProgressState) (loaded total currentTime : ℕ)
    (h1 : st.lastLoaded < loaded) (h2 : loaded ≤ total)
    (ht : st.lastTime < currentTime) :
    ∃ d, (onUploadProgress st ⟨loaded, some total⟩ currentTime).1 = some d ∧
      jsLe (JSNum.num 0) d.speedBps = true ∧
      jsLe (JSNum.num 0) d.etaSeconds = true ∧
      jsLe (JSNum.num 0) d.etaMin = true ∧
      jsLe (JSNum.num 0) d.etaSec = true ∧
      jsLt d.etaSec (JSNum.num 60) = true := by
  have htot : total ≠ 0 := by omega
  have hlt : (st.lastTime : ℚ) < (currentTime : ℚ) := by exact_mod_cast ht
  have htd : (0 : ℚ) < ((currentTime : ℚ) - (st.lastTime : ℚ)) / 1000 :=
    div_pos (by linarith) (by norm_num)
  have hll : (st.lastLoaded : ℚ) < (loaded : ℚ) := by exact_mod_cast h1
  have hld : (0 : ℚ) < (loaded : ℚ) - (st.lastLoaded : ℚ) := by linarith
  have hsp : (0 : ℚ) < ((loaded : ℚ) - (st.lastLoaded : ℚ)) /
      (((currentTime : ℚ) - (st.lastTime : ℚ)) / 1000) := div_pos hld htd
  have hrem : (0 : ℚ) ≤ (total : ℚ) - (loaded : ℚ) := by
    have hlo : (loaded : ℚ) ≤ (total : ℚ) := by exact_mod_cast h2
    linarith
  have hchain := etaChain_inRange ((total : ℚ) - (loaded : ℚ))
    (((loaded : ℚ) - (st.lastLoaded : ℚ)) /
      (((currentTime : ℚ) - (st.lastTime : ℚ)) / 1000)) hrem hsp
  simp only [onUploadProgress]
  rw [if_pos htot, if_pos htd]
  refine ⟨_, rfl, ?_, ?_, ?_, ?_, ?_⟩
  · rw [jsDiv_num_of_ne _ _ (ne_of_gt htd), jsLe_num]
    exact decide_eq_true hsp.le
  · rw [jsDiv_num_of_ne _ _ (ne_of_gt htd)]
    exact hchain.1
  · rw [jsDiv_num_of_ne _ _ (ne_of_gt htd)]
    exact hchain.2.1
  · rw [jsDiv_num_of_ne _ _ (ne_of_gt htd)]
    exact hchain.2.2.1
  · rw [jsDiv_num_of_ne _ _ (ne_of_gt htd)]
    exact hchain.2.2.2

/-- Witness for C8 (amended) at a concrete sample: 500 of 1000 bytes
loaded after 2000 ms with no prior progress. -/
theorem progress_eta_nonneg_witness :
    (⟨0, 0⟩ : ProgressState).lastLoaded < 500 ∧ (500 : ℕ) ≤ 1000 ∧
    (∃ d, (onUploadProgress ⟨0, 0⟩ ⟨500, some 1000⟩ 2000).1 = some d ∧
      jsLe (JSNum.num 0) d.etaSec = true ∧
      jsLt d.etaSec (JSNum.num 60) = true) := by
  refine ⟨by decide, by decide, ?_⟩
  obtain ⟨d, hd, _, _, _, h5, h6⟩ :=
    progress_eta_nonneg ⟨0, 0⟩ 500 1000 2000 (by decide) (by decide) (by decide)
  exact ⟨d, hd, h5, h6⟩

end Pld
